import Mathlib

/-!
Shallow embedding of the Club Task Management System (src/app1.py).

Tables loaded from the Excel workbook are modelled as lists of records
together with booleans recording which optional columns are present
(pandas column presence is a property of the whole table, not of a row).
The password hashing primitive (hashlib.sha256 hexdigest) is treated as
an opaque function parameter, matching the spec's declaration that
hashing is an external capability.  `random.randint(100000, 999999)` is
modelled as a draw stream `Nat → Int` whose values lie in the range, and
the unbounded rejection-sampling loop is given fuel, returning
`Option Int`.
-/

namespace App1

/-- A spreadsheet cell that is either numeric or text (enough to model
pandas `to_numeric(..., errors="coerce")` on the TaskID column). -/
inductive Cell where
  | i : Int → Cell
  | s : String → Cell
deriving DecidableEq, Repr

/-- Numeric coercion of a cell: integers stay, strings are parsed,
unparseable text coerces to none (pandas NaN, later dropped). -/
def numericVal : Cell → Option Int
  | Cell.i n => some n
  | Cell.s t => t.toInt?

/-- One row of the Members sheet.  `password`, `domain` and `reportsTo`
are meaningful only when the corresponding column-presence flag of the
table is set. -/
structure Member where
  name : String
  role : String
  password : String
  domain : String
  reportsTo : String
deriving DecidableEq, Repr

/-- The Members sheet: optional-column flags plus the rows in sheet
order. -/
structure MembersTable where
  hasPassword : Bool
  hasDomain : Bool
  hasReportsTo : Bool
  rows : List Member
deriving DecidableEq, Repr

/-- One row of the Tasks sheet. -/
structure Task where
  taskID : Cell
  taskName : String
  assignedTo : String
  role : String
  status : String
  deadline : String
  priority : String
  description : String
deriving DecidableEq, Repr

/-- Python `not s.strip()`: true exactly when the string is empty or
consists of whitespace only. -/
def is_blank (s : String) : Bool :=
  s.data.all (fun c => c.isWhitespace)

/-- app1.py `get_subordinates(member_name, members_df)` (lines 57-98).
`members_df[members_df["Name"] == member_name]` is the filter by name;
`.iloc[0]` is the head of that filter. -/
def get_subordinates (member_name : String) (tbl : MembersTable) : List String :=
  if tbl.rows.isEmpty then []
  else
    match tbl.rows.filter (fun r => r.name == member_name) with
    | [] => []
    | m :: _ =>
      if m.role == "Core Head" then
        (tbl.rows.filter
          (fun r => (["Domain Head", "Core Head"] : List String).contains r.role)).map
          (fun r => r.name)
      else if m.role == "Domain Head" then
        if tbl.hasDomain then
          (tbl.rows.filter
            (fun r => r.role == "Associate Head" && r.domain == m.domain)).map
            (fun r => r.name)
        else
          (tbl.rows.filter (fun r => r.role == "Associate Head")).map (fun r => r.name)
      else if m.role == "Associate Head" then
        if tbl.hasReportsTo then
          (tbl.rows.filter
            (fun r => r.role == "Junior Head" && r.reportsTo == member_name)).map
            (fun r => r.name)
        else
          (tbl.rows.filter (fun r => r.role == "Junior Head")).map (fun r => r.name)
      else []

/-- app1.py `authenticate_user(username, password, members_df)`
(lines 100-124), with the SHA-256 hexdigest abstracted as `hashFn`.
Returns the `(success, username, role)` triple of the source. -/
def authenticate_user (hashFn : String → String) (username password : String)
    (tbl : MembersTable) : Bool × Option String × Option String :=
  if tbl.rows.isEmpty then (false, none, none)
  else
    match tbl.rows.filter (fun r => r.name == username) with
    | [] => (false, none, none)
    | m :: _ =>
      if tbl.hasPassword then
        let stored := m.password
        if stored.length == 64
            && stored.data.all
                (fun c => ("0123456789abcdef" : String).data.contains c.toLower) then
          if hashFn password == stored then (true, some username, some m.role)
          else (false, none, none)
        else
          if password == stored then (true, some username, some m.role)
          else (false, none, none)
      else
        if password == "password123" then (true, some username, some m.role)
        else (false, none, none)

/-- The 64-lowercase-hex test of app1.py line 112, as a named predicate. -/
def looks_hashed (stored : String) : Bool :=
  stored.length == 64
    && stored.data.all (fun c => ("0123456789abcdef" : String).data.contains c.toLower)

/-- The numeric TaskIDs already present in the Tasks sheet
(app1.py line 167): `to_numeric(..., errors="coerce").dropna()`. -/
def existing_ids (tasks : List Task) : List Int :=
  tasks.filterMap (fun t => numericVal t.taskID)

/-- The numeric TaskIDs of the table as a whole: none when the TaskID
column is absent. -/
def existing_numeric_ids (hasTaskID : Bool) (tasks : List Task) : List Int :=
  if hasTaskID then existing_ids tasks else []

/-- The `while True` rejection-sampling loop of app1.py lines 168-171,
consuming draws `draw k, draw (k+1), ...` with fuel. -/
def taskid_loop (existing : List Int) (draw : Nat → Int) : Nat → Nat → Option Int
  | _, 0 => none
  | k, fuel + 1 =>
    if existing.contains (draw k) then taskid_loop existing draw (k + 1) fuel
    else some (draw k)

/-- app1.py `generate_unique_taskid(tasks_df)` (lines 163-171).
`tasks_df.empty or "TaskID" not in tasks_df.columns` short-circuits to a
single unchecked draw. -/
def generate_unique_taskid (hasTaskID : Bool) (tasks : List Task)
    (draw : Nat → Int) (fuel : Nat) : Option Int :=
  if tasks.isEmpty || !hasTaskID then some (draw 0)
  else taskid_loop (existing_ids tasks) draw 0 fuel

/-- Result of `register_user`: the returned (success, message) pair plus
the tables written to the workbook, `none` when nothing was written. -/
structure RegResult where
  ok : Bool
  msg : String
  written : Option (List Member × List Task)
deriving DecidableEq, Repr

/-- The save half of app1.py `register_user` (lines 140-161): append the
placeholder task row (all cells "-", then AssignedTo, Role and a fresh
TaskID when that column exists) and persist both sheets.  `none` models
the id-generation loop running out of fuel. -/
def register_save (name role : String) (members2 : List Member)
    (hasTaskID : Bool) (tasks : List Task) (draw : Nat → Int) (fuel : Nat) :
    Option RegResult :=
  let base : Task := ⟨Cell.s "-", "-", name, role, "-", "-", "-", "-"⟩
  if hasTaskID then
    match generate_unique_taskid hasTaskID tasks draw fuel with
    | none => none
    | some v =>
      some ⟨true, "Registration successful! You can now log in.",
        some (members2, tasks ++ [{ base with taskID := Cell.i v }])⟩
  else
    some ⟨true, "Registration successful! You can now log in.",
      some (members2, tasks ++ [base])⟩

/-- app1.py `register_user(name, password, role, members_df)`
(lines 126-161).  The conflict check (`name in members_df["Name"].values`)
runs before any write. -/
def register_user (hashFn : String → String) (name password role : String)
    (tbl : MembersTable) (hasTaskID : Bool) (tasks : List Task)
    (draw : Nat → Int) (fuel : Nat) : Option RegResult :=
  let new_user : Member := ⟨name, role, hashFn password, "", ""⟩
  if tbl.rows.isEmpty then
    register_save name role [new_user] hasTaskID tasks draw fuel
  else
    if (tbl.rows.map (fun r => r.name)).contains name then
      some ⟨false, "User already exists.", none⟩
    else
      register_save name role (tbl.rows ++ [new_user]) hasTaskID tasks draw fuel

/-- The role-scoped task filter of `show_dashboard` (app1.py
lines 307-331), producing `view_df`. -/
def visible_tasks (user_name user_role : String) (tasks : List Task)
    (members : MembersTable) : List Task :=
  if user_role == "Core Head" then
    tasks.filter (fun t => (["Core Head", "Domain Head"] : List String).contains t.role)
  else if user_role == "Domain Head" then
    tasks.filter (fun t =>
      t.assignedTo == user_name
        || (get_subordinates user_name members).contains t.assignedTo)
  else if user_role == "Associate Head" then
    tasks.filter (fun t =>
      t.assignedTo == user_name
        || (get_subordinates user_name members).contains t.assignedTo)
  else
    tasks.filter (fun t => t.assignedTo == user_name)

/-- The status-update submission of `show_dashboard` (app1.py
lines 460-467): validation first, then `loc` assignment of Status on the
rows whose TaskID equals the selection, then of Description when the new
status is Done, then the sheet write.  `none` models the rejected update
(warning shown, no write). -/
def update_status (tasks : List Task) (task_to_update : Cell)
    (new_status completion_description : String) : Option (List Task) :=
  if new_status == "Done" && is_blank completion_description then none
  else
    some (tasks.map (fun t =>
      if t.taskID == task_to_update then
        let t2 : Task := { t with status := new_status }
        if new_status == "Done" then { t2 with description := completion_description }
        else t2
      else t))

/-! ## Theorems -/

/-- C1: for every member table and every actor whose role is Core Head
(the role of the first row matching the actor's name), `get_subordinates`
returns exactly the names of the members whose role is Domain Head or
Core Head, in table order, and the actor itself is among them (no
self-exclusion is performed). -/
theorem get_subordinates_core_head (tbl : MembersTable) (actor : String)
    (m : Member) (rest : List Member)
    (hfind : tbl.rows.filter (fun r => r.name == actor) = m :: rest)
    (hrole : m.role = "Core Head") :
    get_subordinates actor tbl
        = (tbl.rows.filter
            (fun r => (["Domain Head", "Core Head"] : List String).contains r.role)).map
            (fun r => r.name)
      ∧ actor ∈ get_subordinates actor tbl := by
  have hmemf : m ∈ tbl.rows.filter (fun r => r.name == actor) := by
    rw [hfind]; exact List.mem_cons_self m rest
  have hmem : m ∈ tbl.rows := List.mem_of_mem_filter hmemf
  have hname : m.name = actor := by
    have h2 := List.of_mem_filter hmemf
    simpa using h2
  have hne : tbl.rows.isEmpty = false := by
    rcases hr : tbl.rows with _ | ⟨a, as⟩
    · rw [hr] at hfind; simp at hfind
    · simp
  have heq : get_subordinates actor tbl
      = (tbl.rows.filter
          (fun r => (["Domain Head", "Core Head"] : List String).contains r.role)).map
          (fun r => r.name) := by
    unfold get_subordinates
    rw [hfind]
    simp [hne, hrole]
  refine ⟨heq, ?_⟩
  rw [heq, ← hname]
  exact List.mem_map.mpr ⟨m, List.mem_filter.mpr ⟨hmem, by rw [hrole]; decide⟩, rfl⟩

/-- Witness for C1 at a concrete three-member table. -/
theorem get_subordinates_core_head_witness :
    get_subordinates "Alice"
        (MembersTable.mk true false false
          [⟨"Alice", "Core Head", "x", "", ""⟩, ⟨"Bob", "Domain Head", "y", "", ""⟩,
           ⟨"Carol", "Junior Head", "z", "", ""⟩])
        = ((MembersTable.mk true false false
            [⟨"Alice", "Core Head", "x", "", ""⟩, ⟨"Bob", "Domain Head", "y", "", ""⟩,
             ⟨"Carol", "Junior Head", "z", "", ""⟩]).rows.filter
            (fun r => (["Domain Head", "Core Head"] : List String).contains r.role)).map
            (fun r => r.name)
      ∧ "Alice" ∈ get_subordinates "Alice"
          (MembersTable.mk true false false
            [⟨"Alice", "Core Head", "x", "", ""⟩, ⟨"Bob", "Domain Head", "y", "", ""⟩,
             ⟨"Carol", "Junior Head", "z", "", ""⟩]) :=
  get_subordinates_core_head _ "Alice" ⟨"Alice", "Core Head", "x", "", ""⟩ []
    (by decide) rfl

/-- C5: for a Domain Head actor, `get_subordinates` returns the names of
the Associate Head members of the actor's domain when the Domain column
exists, and of all Associate Head members otherwise. -/
theorem get_subordinates_domain_head (tbl : MembersTable) (actor : String)
    (m : Member) (rest : List Member)
    (hfind : tbl.rows.filter (fun r => r.name == actor) = m :: rest)
    (hrole : m.role = "Domain Head") :
    get_subordinates actor tbl
      = if tbl.hasDomain then
          (tbl.rows.filter
            (fun r => r.role == "Associate Head" && r.domain == m.domain)).map
            (fun r => r.name)
        else
          (tbl.rows.filter (fun r => r.role == "Associate Head")).map
            (fun r => r.name) := by
  have hne : tbl.rows.isEmpty = false := by
    rcases hr : tbl.rows with _ | ⟨a, as⟩
    · rw [hr] at hfind; simp at hfind
    · simp
  unfold get_subordinates
  rw [hfind]
  simp [hne, hrole]

/-- Witness for C5: a Domain Head in a table that has a Domain column
sees only the Associate Heads of their own domain. -/
theorem get_subordinates_domain_head_witness :
    get_subordinates "Dana"
        (MembersTable.mk true true false
          [⟨"Dana", "Domain Head", "x", "Tech", ""⟩,
           ⟨"Eve", "Associate Head", "y", "Tech", ""⟩,
           ⟨"Finn", "Associate Head", "z", "Design", ""⟩])
      = if (MembersTable.mk true true false
            [⟨"Dana", "Domain Head", "x", "Tech", ""⟩,
             ⟨"Eve", "Associate Head", "y", "Tech", ""⟩,
             ⟨"Finn", "Associate Head", "z", "Design", ""⟩] : MembersTable).hasDomain then
          ((MembersTable.mk true true false
            [⟨"Dana", "Domain Head", "x", "Tech", ""⟩,
             ⟨"Eve", "Associate Head", "y", "Tech", ""⟩,
             ⟨"Finn", "Associate Head", "z", "Design", ""⟩]).rows.filter
            (fun r => r.role == "Associate Head"
                && r.domain == (⟨"Dana", "Domain Head", "x", "Tech", ""⟩ : Member).domain)).map
            (fun r => r.name)
        else
          ((MembersTable.mk true true false
            [⟨"Dana", "Domain Head", "x", "Tech", ""⟩,
             ⟨"Eve", "Associate Head", "y", "Tech", ""⟩,
             ⟨"Finn", "Associate Head", "z", "Design", ""⟩]).rows.filter
            (fun r => r.role == "Associate Head")).map (fun r => r.name) :=
  get_subordinates_domain_head _ "Dana" ⟨"Dana", "Domain Head", "x", "Tech", ""⟩ []
    (by decide) rfl

/-- C8: `get_subordinates` returns the empty list when the member table
is empty, when the actor's name is not found, or when the first matching
row's role is Junior Head or any role other than Core Head, Domain Head,
Associate Head (total function, so it never raises). -/
theorem get_subordinates_degenerate (tbl : MembersTable) (actor : String)
    (h : tbl.rows = []
      ∨ (∀ r ∈ tbl.rows, r.name ≠ actor)
      ∨ ∀ m rest, tbl.rows.filter (fun r => r.name == actor) = m :: rest →
          m.role ≠ "Core Head" ∧ m.role ≠ "Domain Head" ∧ m.role ≠ "Associate Head") :
    get_subordinates actor tbl = [] := by
  rcases h with h | h | h
  · unfold get_subordinates
    simp [h]
  · have hf : tbl.rows.filter (fun r => r.name == actor) = [] := by
      rw [List.filter_eq_nil_iff]
      intro a ha
      simp [h a ha]
    unfold get_subordinates
    rw [hf]
    simp
  · rcases hf : tbl.rows.filter (fun r => r.name == actor) with _ | ⟨m, rest⟩
    · unfold get_subordinates
      rw [hf]
      simp
    · obtain ⟨h1, h2, h3⟩ := h m rest hf
      unfold get_subordinates
      rw [hf]
      simp [h1, h2, h3]

/-- Witness for C8: an empty member table yields no subordinates. -/
theorem get_subordinates_degenerate_witness :
    get_subordinates "Zed" (MembersTable.mk true false false []) = [] :=
  get_subordinates_degenerate (MembersTable.mk true false false []) "Zed" (Or.inl rfl)

/-- C4: when the Members sheet has no Password column, authentication
with the fixed default credential "password123" succeeds for any member
present in the table, returning that member's name and role, and any
other supplied password fails. -/
theorem authenticate_user_default (hashFn : String → String) (tbl : MembersTable)
    (username p : String) (m : Member) (rest : List Member)
    (hnp : tbl.hasPassword = false)
    (hfind : tbl.rows.filter (fun r => r.name == username) = m :: rest)
    (hne_p : p ≠ "password123") :
    authenticate_user hashFn username "password123" tbl
        = (true, some username, some m.role)
      ∧ authenticate_user hashFn username p tbl = (false, none, none) := by
  have hne : tbl.rows.isEmpty = false := by
    rcases hr : tbl.rows with _ | ⟨a, as⟩
    · rw [hr] at hfind; simp at hfind
    · simp
  constructor
  · unfold authenticate_user
    rw [hfind]
    simp [hne, hnp]
  · unfold authenticate_user
    rw [hfind]
    simp [hne, hnp, hne_p]

/-- Witness for C4 on a one-member table without a Password column. -/
theorem authenticate_user_default_witness :
    authenticate_user (fun q => q) "Bob" "password123"
        (MembersTable.mk false false false [⟨"Bob", "Junior Head", "", "", ""⟩])
        = (true, some "Bob", some (⟨"Bob", "Junior Head", "", "", ""⟩ : Member).role)
      ∧ authenticate_user (fun q => q) "Bob" "wrong"
          (MembersTable.mk false false false [⟨"Bob", "Junior Head", "", "", ""⟩])
        = (false, none, none) :=
  authenticate_user_default (fun q => q)
    (MembersTable.mk false false false [⟨"Bob", "Junior Head", "", "", ""⟩])
    "Bob" "wrong" ⟨"Bob", "Junior Head", "", "", ""⟩ [] rfl (by decide) (by decide)

/-- C9: when the stored password of the member's first matching row is a
64-character string whose lowercase form is all hexadecimal digits,
authentication succeeds exactly when the hash of the supplied password
equals the stored value; in particular, supplying the stored value
itself succeeds only if it is its own digest (the plaintext-equality
branch is never reached). -/
theorem authenticate_user_hashed (hashFn : String → String) (tbl : MembersTable)
    (username p : String) (m : Member) (rest : List Member)
    (hp : tbl.hasPassword = true)
    (hfind : tbl.rows.filter (fun r => r.name == username) = m :: rest)
    (hh : looks_hashed m.password = true) :
    ((authenticate_user hashFn username p tbl).1 = true ↔ hashFn p = m.password)
      ∧ ((authenticate_user hashFn username m.password tbl).1 = true
          ↔ hashFn m.password = m.password) := by
  have hne : tbl.rows.isEmpty = false := by
    rcases hr : tbl.rows with _ | ⟨a, as⟩
    · rw [hr] at hfind; simp at hfind
    · simp
  simp only [looks_hashed] at hh
  have main : ∀ q : String,
      (authenticate_user hashFn username q tbl).1 = true ↔ hashFn q = m.password := by
    intro q
    unfold authenticate_user
    rw [hfind]
    simp only [hne, hp, Bool.false_eq_true, if_false, if_true]
    rw [if_pos hh]
    by_cases hc : hashFn q = m.password
    · simp [hc]
    · simp [hc]
  exact ⟨main p, main m.password⟩

/-- Witness for C9: a stored 64-character lowercase-hex credential is
checked through the hash, not by plaintext equality. -/
theorem authenticate_user_hashed_witness :
    ((authenticate_user
        (fun _ => "aaaaaaaaaaaaaaaaaaaaaaaaaaaaaaaaaaaaaaaaaaaaaaaaaaaaaaaaaaaaaaaa")
        "Alice" "pw"
        (MembersTable.mk true false false
          [⟨"Alice", "Core Head",
            "aaaaaaaaaaaaaaaaaaaaaaaaaaaaaaaaaaaaaaaaaaaaaaaaaaaaaaaaaaaaaaaa", "", ""⟩])).1
          = true
      ↔ (fun _ => "aaaaaaaaaaaaaaaaaaaaaaaaaaaaaaaaaaaaaaaaaaaaaaaaaaaaaaaaaaaaaaaa") "pw"
          = (⟨"Alice", "Core Head",
              "aaaaaaaaaaaaaaaaaaaaaaaaaaaaaaaaaaaaaaaaaaaaaaaaaaaaaaaaaaaaaaaa", "", ""⟩
              : Member).password)
    ∧ ((authenticate_user
        (fun _ => "aaaaaaaaaaaaaaaaaaaaaaaaaaaaaaaaaaaaaaaaaaaaaaaaaaaaaaaaaaaaaaaa")
        "Alice"
        (⟨"Alice", "Core Head",
          "aaaaaaaaaaaaaaaaaaaaaaaaaaaaaaaaaaaaaaaaaaaaaaaaaaaaaaaaaaaaaaaa", "", ""⟩
          : Member).password
        (MembersTable.mk true false false
          [⟨"Alice", "Core Head",
            "aaaaaaaaaaaaaaaaaaaaaaaaaaaaaaaaaaaaaaaaaaaaaaaaaaaaaaaaaaaaaaaa", "", ""⟩])).1
          = true
      ↔ (fun _ => "aaaaaaaaaaaaaaaaaaaaaaaaaaaaaaaaaaaaaaaaaaaaaaaaaaaaaaaaaaaaaaaa")
          (⟨"Alice", "Core Head",
            "aaaaaaaaaaaaaaaaaaaaaaaaaaaaaaaaaaaaaaaaaaaaaaaaaaaaaaaaaaaaaaaa", "", ""⟩
            : Member).password
          = (⟨"Alice", "Core Head",
              "aaaaaaaaaaaaaaaaaaaaaaaaaaaaaaaaaaaaaaaaaaaaaaaaaaaaaaaaaaaaaaaa", "", ""⟩
              : Member).password) :=
  authenticate_user_hashed
    (fun _ => "aaaaaaaaaaaaaaaaaaaaaaaaaaaaaaaaaaaaaaaaaaaaaaaaaaaaaaaaaaaaaaaa")
    (MembersTable.mk true false false
      [⟨"Alice", "Core Head",
        "aaaaaaaaaaaaaaaaaaaaaaaaaaaaaaaaaaaaaaaaaaaaaaaaaaaaaaaaaaaaaaaa", "", ""⟩])
    "Alice" "pw"
    ⟨"Alice", "Core Head",
      "aaaaaaaaaaaaaaaaaaaaaaaaaaaaaaaaaaaaaaaaaaaaaaaaaaaaaaaaaaaaaaaa", "", ""⟩ []
    rfl (by decide) (by decide)

/-- C2: a status update to Done with an empty or whitespace-only
description is rejected before any mutation: `update_status` returns
`none` (warning shown, no row changed, no sheet write), whatever the
task selection.  The check in app1.py line 461 does not consult the
actor's role. -/
theorem update_status_done_blank (tasks : List Task) (sel : Cell) (d : String)
    (hd : is_blank d = true) :
    update_status tasks sel "Done" d = none := by
  unfold update_status
  simp [hd]

/-- Witness for C2 with a whitespace-only description. -/
theorem update_status_done_blank_witness :
    update_status [⟨Cell.i 5, "t", "Bob", "Junior Head", "In Progress", "-", "High", "old"⟩]
      (Cell.i 5) "Done" "  " = none :=
  update_status_done_blank
    [⟨Cell.i 5, "t", "Bob", "Junior Head", "In Progress", "-", "High", "old"⟩]
    (Cell.i 5) "  " (by decide)

/-- C10: a status update whose new status is not Done always succeeds,
changes no Description field, leaves every row whose TaskID differs from
the selection untouched, and rewrites exactly the Status field of the
rows whose TaskID equals the selection. -/
theorem update_status_frame (tasks : List Task) (sel : Cell) (ns d : String)
    (hns : ns ≠ "Done") :
    ∃ tasks2, update_status tasks sel ns d = some tasks2
      ∧ List.Forall₂ (fun t t2 =>
          t2.description = t.description
            ∧ (t.taskID ≠ sel → t2 = t)
            ∧ (t.taskID = sel → t2 = { t with status := ns })) tasks tasks2 := by
  have hbeq : (ns == "Done") = false := by simpa using hns
  refine ⟨tasks.map (fun t => if t.taskID == sel then { t with status := ns } else t),
    ?_, ?_⟩
  · unfold update_status
    simp [hbeq]
  · induction tasks with
    | nil => constructor
    | cons t ts ih =>
      simp only [List.map]
      refine List.Forall₂.cons ?_ ih
      by_cases hc : t.taskID = sel
      · simp [hc]
      · simp [hc]

/-- Witness for C10: setting a task to In Progress touches only the
Status field of the selected row. -/
theorem update_status_frame_witness :
    ∃ tasks2,
      update_status
          [⟨Cell.i 5, "t", "Bob", "Junior Head", "Not Started", "-", "High", "old"⟩,
           ⟨Cell.i 6, "u", "Eve", "Associate Head", "Not Started", "-", "Low", "keep"⟩]
          (Cell.i 5) "In Progress" "" = some tasks2
        ∧ List.Forall₂ (fun t t2 =>
            t2.description = t.description
              ∧ (t.taskID ≠ Cell.i 5 → t2 = t)
              ∧ (t.taskID = Cell.i 5 → t2 = { t with status := "In Progress" }))
            [⟨Cell.i 5, "t", "Bob", "Junior Head", "Not Started", "-", "High", "old"⟩,
             ⟨Cell.i 6, "u", "Eve", "Associate Head", "Not Started", "-", "Low", "keep"⟩]
            tasks2 :=
  update_status_frame
    [⟨Cell.i 5, "t", "Bob", "Junior Head", "Not Started", "-", "High", "old"⟩,
     ⟨Cell.i 6, "u", "Eve", "Associate Head", "Not Started", "-", "Low", "keep"⟩]
    (Cell.i 5) "In Progress" "" (by decide)

/-- C7: a Core Head's view is exactly the tasks whose stored Role field
is Core Head or Domain Head (the task's denormalized role label, not the
assignee's membership, which the filter never consults), and it is a
sublist of the input table, hence in the same relative order. -/
theorem visible_tasks_core_head (user_name : String) (tasks : List Task)
    (members : MembersTable) :
    (∀ t, t ∈ visible_tasks user_name "Core Head" tasks members
        ↔ t ∈ tasks ∧ (t.role = "Core Head" ∨ t.role = "Domain Head"))
      ∧ (visible_tasks user_name "Core Head" tasks members).Sublist tasks := by
  constructor
  · intro t
    unfold visible_tasks
    simp [List.mem_filter]
  · unfold visible_tasks
    simp only [beq_self_eq_true, if_true]
    exact List.filter_sublist _

/-- C3: whenever the rejection-sampling generator returns an id (for any
in-range draw stream and any fuel), that id lies in [100000, 999999] and
differs from every numeric TaskID already in the table; and if some
value of the range is still free, a draw stream and fuel exist on which
it does return. -/
theorem generate_unique_taskid_unique (hasTaskID : Bool) (tasks : List Task)
    (hfree : ∃ v : Int, 100000 ≤ v ∧ v ≤ 999999
        ∧ v ∉ existing_numeric_ids hasTaskID tasks) :
    (∀ (draw : Nat → Int) (fuel : Nat) (v : Int),
        (∀ k, 100000 ≤ draw k ∧ draw k ≤ 999999) →
        generate_unique_taskid hasTaskID tasks draw fuel = some v →
        (100000 ≤ v ∧ v ≤ 999999) ∧ v ∉ existing_numeric_ids hasTaskID tasks)
      ∧ ∃ (draw : Nat → Int) (fuel : Nat) (v : Int),
          (∀ k, 100000 ≤ draw k ∧ draw k ≤ 999999)
            ∧ generate_unique_taskid hasTaskID tasks draw fuel = some v := by
  have loop_sound : ∀ (existing : List Int) (draw : Nat → Int) (fuel k : Nat) (v : Int),
      taskid_loop existing draw k fuel = some v →
      (∃ j, v = draw j) ∧ v ∉ existing := by
    intro existing draw fuel
    induction fuel with
    | zero =>
      intro k v h
      simp [taskid_loop] at h
    | succ n ih =>
      intro k v h
      unfold taskid_loop at h
      by_cases hc : existing.contains (draw k) = true
      · rw [if_pos hc] at h
        exact ih (k + 1) v h
      · rw [if_neg hc] at h
        have hv : draw k = v := Option.some.inj h
        refine ⟨⟨k, hv.symm⟩, ?_⟩
        rw [← hv]
        simpa using hc
  constructor
  · intro draw fuel v hrange hgen
    unfold generate_unique_taskid at hgen
    by_cases hdeg : (tasks.isEmpty || !hasTaskID) = true
    · rw [if_pos hdeg] at hgen
      have hv : draw 0 = v := Option.some.inj hgen
      refine ⟨hv ▸ hrange 0, ?_⟩
      rcases (Bool.or_eq_true _ _).mp hdeg with he | hn
      · have : tasks = [] := by simpa using he
        subst this
        simp [existing_numeric_ids, existing_ids]
      · have : hasTaskID = false := by simpa using hn
        simp [existing_numeric_ids, this]
    · rw [if_neg hdeg] at hgen
      obtain ⟨⟨j, hj⟩, hnot⟩ := loop_sound _ _ fuel 0 v hgen
      have hT : hasTaskID = true := by
        rcases hasTaskID with _ | _
        · simp at hdeg
        · rfl
      refine ⟨hj ▸ hrange j, ?_⟩
      simpa [existing_numeric_ids, hT] using hnot
  · obtain ⟨v, h1, h2, h3⟩ := hfree
    refine ⟨fun _ => v, 1, v, fun _ => ⟨h1, h2⟩, ?_⟩
    unfold generate_unique_taskid
    by_cases hdeg : (tasks.isEmpty || !hasTaskID) = true
    · rw [if_pos hdeg]
    · rw [if_neg hdeg]
      have hT : hasTaskID = true := by
        rcases hasTaskID with _ | _
        · simp at hdeg
        · rfl
      rw [hT] at h3
      simp only [existing_numeric_ids, if_pos rfl] at h3
      unfold taskid_loop
      rw [if_neg (by simpa using h3)]

/-- Witness for C3 on a one-row table whose only TaskID is 100000. -/
theorem generate_unique_taskid_unique_witness :
    (∀ (draw : Nat → Int) (fuel : Nat) (v : Int),
        (∀ k, 100000 ≤ draw k ∧ draw k ≤ 999999) →
        generate_unique_taskid true
          [⟨Cell.i 100000, "t", "Bob", "Junior Head", "Done", "-", "High", "d"⟩]
          draw fuel = some v →
        (100000 ≤ v ∧ v ≤ 999999)
          ∧ v ∉ existing_numeric_ids true
              [⟨Cell.i 100000, "t", "Bob", "Junior Head", "Done", "-", "High", "d"⟩])
      ∧ ∃ (draw : Nat → Int) (fuel : Nat) (v : Int),
          (∀ k, 100000 ≤ draw k ∧ draw k ≤ 999999)
            ∧ generate_unique_taskid true
                [⟨Cell.i 100000, "t", "Bob", "Junior Head", "Done", "-", "High", "d"⟩]
                draw fuel = some v :=
  generate_unique_taskid_unique true
    [⟨Cell.i 100000, "t", "Bob", "Junior Head", "Done", "-", "High", "d"⟩]
    ⟨100001, by decide, by decide, by decide⟩

/-- C6: registering a name that already occurs in a non-empty Members
sheet fails with the conflict message and writes neither table
(`written = none`), for any password, role, task table and id-generation
stream. -/
theorem register_user_conflict (hashFn : String → String)
    (name password role : String) (tbl : MembersTable) (hasTaskID : Bool)
    (tasks : List Task) (draw : Nat → Int) (fuel : Nat)
    (hne : tbl.rows ≠ [])
    (hmem : name ∈ tbl.rows.map (fun r => r.name)) :
    register_user hashFn name password role tbl hasTaskID tasks draw fuel
      = some ⟨false, "User already exists.", none⟩ := by
  have hempty : tbl.rows.isEmpty = false := by
    rcases hr : tbl.rows with _ | ⟨a, as⟩
    · exact absurd hr hne
    · simp
  have hcont : (tbl.rows.map (fun r => r.name)).contains name = true := by
    simpa using hmem
  unfold register_user
  rw [if_neg (by simp [hempty]), if_pos hcont]

/-- Witness for C6: re-registering "Bob" is rejected without a write. -/
theorem register_user_conflict_witness :
    register_user (fun q => q) "Bob" "pw" "Junior Head"
        (MembersTable.mk true false false [⟨"Bob", "Junior Head", "h", "", ""⟩])
        true [] (fun _ => 100000) 1
      = some ⟨false, "User already exists.", none⟩ :=
  register_user_conflict (fun q => q) "Bob" "pw" "Junior Head"
    (MembersTable.mk true false false [⟨"Bob", "Junior Head", "h", "", ""⟩])
    true [] (fun _ => 100000) 1 (by decide) (by decide)

end App1
